import Mathlib

set_option maxRecDepth 10000

/-!
# Verification of the ply pipeline fusion engine

A shallow embedding of the core of `ply`, a source-to-source code generator
that adds generic container operations to Go.  The authoritative source is
the `codegen` package (`codegen/pipeline.go`, `codegen/gen.go`,
`codegen/specialize.go`/`codegen/ply.go`); the historical `package main`
implementation (`gen.go`, `pipeline.go`) is embedded where a property
refers to it (the pseudo-random name suffixes, the single-operation fold
template).

The generator manipulates Go code as strings with marker substitution, so
the embedding models Go's `strings` primitives (`Replace`, `Contains`,
`TrimSpace`, `Join`, `NewReplacer`) over `List Char`, and the template
table, specializer, chain recognizer and fragment assembler as pure
functions of explicit state.
-/

namespace Ply

/-! ## Go string primitives

All patterns passed to `strings.Replace` / `strings.Contains` /
`strings.NewReplacer` by the generator are nonempty literals such as
`"#next"`, so the empty-pattern corner of Go's semantics (matching at every
position) is irrelevant; the embeddings below treat an empty pattern as
matching nowhere. -/

/-- `strings.Replace(s, old, new, -1)` on `List Char`: replace every
(non-overlapping, leftmost-first) occurrence of `pat` by `rep`.  The
recursion is structural on a fuel argument (initialised to the length of
the string, which bounds the number of scanning steps) so that the
definition evaluates inside the kernel. -/
def replaceAllChAux (pat rep : List Char) : Nat → List Char → List Char
  | _, [] => []
  | 0, s => s
  | fuel + 1, c :: s =>
    if pat ≠ [] ∧ pat.isPrefixOf (c :: s)
    then rep ++ replaceAllChAux pat rep fuel ((c :: s).drop pat.length)
    else c :: replaceAllChAux pat rep fuel s

/-- `strings.Replace(s, old, new, -1)` on `List Char`. -/
def replaceAllCh (pat rep s : List Char) : List Char :=
  replaceAllChAux pat rep s.length s

/-- `strings.Replace(s, old, new, 1)` on `List Char`: replace the first
occurrence of `pat` by `rep`. -/
def replaceFirstCh (pat rep : List Char) : List Char → List Char
  | [] => []
  | c :: s =>
    if pat ≠ [] ∧ pat.isPrefixOf (c :: s)
    then rep ++ (c :: s).drop pat.length
    else c :: replaceFirstCh pat rep s

/-- `strings.Contains(s, pat)` on `List Char`. -/
def containsCh (pat : List Char) : List Char → Bool
  | [] => pat.isEmpty
  | c :: s => pat.isPrefixOf (c :: s) || containsCh pat s

/-- `strings.Replace(s, old, new, -1)`. -/
def grepl (s pat rep : String) : String := ⟨replaceAllCh pat.data rep.data s.data⟩

/-- `strings.Replace(s, old, new, 1)`. -/
def grepl1 (s pat rep : String) : String := ⟨replaceFirstCh pat.data rep.data s.data⟩

/-- `strings.Contains(s, pat)`. -/
def gcontains (s pat : String) : Bool := containsCh pat.data s.data

/-- `unicode.IsSpace` restricted to the ASCII space characters, which are
the only ones occurring in the templates. -/
def goIsSpace (c : Char) : Bool :=
  c = ' ' || c = '\t' || c = '\n' || c = '\x0b' || c = '\x0c' || c = '\r'

/-- `strings.TrimSpace`. -/
def trimSpace (s : String) : String :=
  ⟨((s.data.dropWhile goIsSpace).reverse.dropWhile goIsSpace).reverse⟩

/-- `strings.Join(elems, sep)`. -/
def goJoin (sep : String) (elems : List String) : String :=
  String.intercalate sep elems

/-- One pass of `strings.NewReplacer(p₁, r₁, ...).Replace`: at each
position the first listed pattern that matches is replaced and scanning
resumes after the replacement (replacements are not rescanned). -/
def multiReplaceChAux (prs : List (List Char × List Char)) : Nat → List Char → List Char
  | _, [] => []
  | 0, s => s
  | fuel + 1, c :: s =>
    match prs.find? (fun pr => pr.1.isPrefixOf (c :: s)) with
    | some pr =>
      if pr.1 = [] then c :: multiReplaceChAux prs fuel s
      else pr.2 ++ multiReplaceChAux prs fuel ((c :: s).drop pr.1.length)
    | none => c :: multiReplaceChAux prs fuel s

/-- `strings.NewReplacer(...).Replace` on `List Char`. -/
def multiReplaceCh (prs : List (List Char × List Char)) (s : List Char) : List Char :=
  multiReplaceChAux prs s.length s

/-- `strings.NewReplacer(...).Replace` on `String`. -/
def multiReplace (prs : List (String × String)) (s : String) : String :=
  ⟨multiReplaceCh (prs.map (fun pr => (pr.1.data, pr.2.data))) s.data⟩

/-! ## The transformation data model (codegen/pipeline.go)

A `transformation` holds the receiver/parameter/result type templates and
the five code fragments (`outline`, `setup`, `loop`, `op`, `cons`).  Go
struct fields left unset in a composite literal are the zero value, which
the Lean field defaults mirror.  The `typeFn` closures of the source are a
closed set; they are embedded as the tag `TypeRule` plus the interpreter
`TypeRule.run`, reading from a `CallInfo` record that carries exactly the
type-oracle data each closure consults. -/

/-- The type-oracle data available at one call site: the element type of a
slice receiver, key/element types of a map receiver, and the parameter and
result types of the first argument when it is a function. -/
structure CallInfo where
  recvSliceElem : String := ""
  recvMapKey : String := ""
  recvMapElem : String := ""
  arg0Params : List String := []
  arg0Results : List String := []
  deriving Repr, DecidableEq

/-- Which `typeFn` closure a registry entry carries. -/
inductive TypeRule where
  | sliceElem      -- justSliceElem
  | mapKeyElem     -- justMapKeyElem
  | foldTU         -- fold_slice: T, U from the two params of args[0]
  | morphSliceTU   -- morph_slice: T from param 0, U from result 0 of args[0]
  | morphMapTUVW   -- morph_map: T, U from params, V, W from results of args[0]
  deriving Repr, DecidableEq

/-- Interprets a `TypeRule` exactly as the corresponding Go closure reads
the type oracle. -/
def TypeRule.run : TypeRule → CallInfo → List String
  | .sliceElem, i => [i.recvSliceElem]
  | .mapKeyElem, i => [i.recvMapKey, i.recvMapElem]
  | .foldTU, i => [i.arg0Params.getD 1 "", i.arg0Params.getD 0 ""]
  | .morphSliceTU, i => [i.arg0Params.getD 0 "", i.arg0Results.getD 0 ""]
  | .morphMapTUVW, i => [i.arg0Params.getD 0 "", i.arg0Params.getD 1 "",
                         i.arg0Results.getD 0 "", i.arg0Results.getD 1 ""]

/-- The `transformation` struct of codegen/pipeline.go. -/
structure Transformation where
  recv : String
  params : List String := []
  ret : String
  outline : String := ""
  setup : String := ""
  loop : String := ""
  op : String := ""
  cons : String := ""
  typeFn : TypeRule
  deriving Repr, DecidableEq

instance : Inhabited Transformation :=
  ⟨{ recv := "", ret := "", typeFn := TypeRule.sliceElem }⟩

/-- `transformations["all_slice"]` of codegen/pipeline.go, fragments verbatim. -/
def t_all_slice : Transformation := {
  recv := "[]#T",
  params := ["func(#T) bool"],
  ret := "bool",
  outline := "\n\t#next\n\treturn true\n",
  loop := "\n\tfor _, #e := range recv \x7b\n\t\t#next\n\t\x7d\n",
  cons := "\n\t\tif !#arg1(#e) \x7b\n\t\t\treturn false\n\t\t\x7d\n",
  typeFn := TypeRule.sliceElem }

/-- `transformations["any_slice"]` of codegen/pipeline.go, fragments verbatim. -/
def t_any_slice : Transformation := {
  recv := "[]#T",
  params := ["func(#T) bool"],
  ret := "bool",
  outline := "\n\t#next\n\treturn false\n",
  loop := "\n\tfor _, #e := range recv \x7b\n\t\t#next\n\t\x7d\n",
  cons := "\n\t\tif #arg1(#e) \x7b\n\t\t\treturn true\n\t\t\x7d\n",
  typeFn := TypeRule.sliceElem }

/-- `transformations["contains_slice"]` of codegen/pipeline.go, fragments verbatim. -/
def t_contains_slice : Transformation := {
  recv := "[]#T",
  params := ["#T"],
  ret := "bool",
  outline := "\n\t#next\n\treturn false\n",
  loop := "\n\tfor _, #e := range recv \x7b\n\t\t#next\n\t\x7d\n",
  cons := "\n\t\tif #e == #arg1 \x7b\n\t\t\treturn true\n\t\t\x7d\n",
  typeFn := TypeRule.sliceElem }

/-- `transformations["containsNil_slice"]` of codegen/pipeline.go, fragments verbatim. -/
def t_containsNil_slice : Transformation := {
  recv := "[]#T",
  params := ["#T"],
  ret := "bool",
  outline := "\n\t#next\n\treturn false\n",
  loop := "\n\tfor _, #e := range recv \x7b\n\t\t#next\n\t\x7d\n",
  cons := "\n\t\tif #e == nil \x7b\n\t\t\treturn true\n\t\t\x7d\n",
  typeFn := TypeRule.sliceElem }

/-- `transformations["drop_slice"]` of codegen/pipeline.go, fragments verbatim. -/
def t_drop_slice : Transformation := {
  recv := "[]#T",
  params := ["int"],
  ret := "[]#T",
  outline := "\n\tvar undropped []#T\n\t#next\n\treturn undropped\n",
  setup := "\n\tndropped#arg1 := 0\n\t#next\n",
  loop := "\n\tif #arg1 > len(recv) \x7b\n\t\t#arg1 = len(recv)\n\t\x7d\n\tndropped#arg1 = #arg1\n\tfor _, #e := range recv[#arg1:] \x7b\n\t\t#next\n\t\x7d\n",
  op := "\n\t\tif ndropped#arg1++; ndropped#arg1 <= #arg1 \x7b\n\t\t\tcontinue\n\t\t\x7d\n\t\t#next\n",
  cons := "\n\t\tundropped = append(undropped, #e)\n",
  typeFn := TypeRule.sliceElem }

/-- `transformations["dropWhile_slice"]` of codegen/pipeline.go, fragments verbatim. -/
def t_dropWhile_slice : Transformation := {
  recv := "[]#T",
  params := ["func(#T) bool"],
  ret := "[]#T",
  outline := "\n\tvar undropped []#T\n\t#next\n\treturn undropped\n",
  setup := "\n\tstilldropping#arg1 := true\n\t#next\n",
  loop := "\n\tfor _, #e := range recv \x7b\n\t\t#next\n\t\x7d\n",
  op := "\n\t\tstilldropping#arg1 = stilldropping#arg1 && #arg1(#e)\n\t\tif stilldropping#arg1 \x7b\n\t\t\tcontinue\n\t\t\x7d\n\t\t#next\n",
  cons := "\n\t\tundropped = append(undropped, #e)\n",
  typeFn := TypeRule.sliceElem }

/-- `transformations["filter_slice"]` of codegen/pipeline.go, fragments verbatim. -/
def t_filter_slice : Transformation := {
  recv := "[]#T",
  params := ["func(#T) bool"],
  ret := "[]#T",
  outline := "\n\tvar filtered []#T\n\t#next\n\treturn filtered\n",
  loop := "\n\tfor _, #e := range recv \x7b\n\t\t#next\n\t\x7d\n",
  op := "\n\t\tif !#arg1(#e) \x7b\n\t\t\tcontinue\n\t\t\x7d\n\t\t#next\n",
  cons := "\n\t\tfiltered = append(filtered, #e)\n",
  typeFn := TypeRule.sliceElem }

/-- `transformations["fold_slice"]` of codegen/pipeline.go, fragments verbatim. -/
def t_fold_slice : Transformation := {
  recv := "[]#T",
  params := ["func(#U, #T) #U", "#U"],
  ret := "#U",
  outline := "\n\tacc := #arg1\n\t#next\n\treturn acc\n",
  loop := "\n\tfor _, #e := range recv \x7b\n\t\t#next\n\t\x7d\n",
  cons := "\n\t\tacc = #arg1(acc, #e)\n",
  typeFn := TypeRule.foldTU }

/-- `transformations["fold1_slice"]` of codegen/pipeline.go, fragments verbatim. -/
def t_fold1_slice : Transformation := {
  recv := "[]#T",
  params := ["func(#T, #T) #T"],
  ret := "#T",
  outline := "\n\tvar acc #T\n\tvar accset bool\n\t#next\n\tif !accset \x7b\n\t\tpanic(\"fold of empty slice\")\n\t\x7d\n\treturn acc\n",
  loop := "\n\tfor _, #e := range recv \x7b\n\t\t#next\n\t\x7d\n",
  cons := "\n\t\tif !accset \x7b\n\t\t\tacc = #e\n\t\t\taccset = true\n\t\t\x7d else \x7b\n\t\t\tacc = #arg1(acc, #e)\n\t\t\x7d\n",
  typeFn := TypeRule.sliceElem }

/-- `transformations["foreach_slice"]` of codegen/pipeline.go, fragments verbatim. -/
def t_foreach_slice : Transformation := {
  recv := "[]#T",
  params := ["func(#T)"],
  ret := "",
  outline := "\n\t#next\n",
  loop := "\n\tfor _, #e := range recv \x7b\n\t\t#next\n\t\x7d\n",
  cons := "\n\t\t#arg1(#e)\n",
  typeFn := TypeRule.sliceElem }

/-- `transformations["morph_slice"]` of codegen/pipeline.go, fragments verbatim. -/
def t_morph_slice : Transformation := {
  recv := "[]#T",
  params := ["func(#T) #U"],
  ret := "[]#U",
  outline := "\n\tvar morphed []#U\n\t#next\n\treturn morphed\n",
  loop := "\n\tfor _, #e := range recv \x7b\n\t\t#next\n\t\x7d\n",
  op := "\n\t\t#+e := #arg1(#e)\n\t\t#next\n",
  cons := "\n\t\tmorphed = append(morphed, #e)\n",
  typeFn := TypeRule.morphSliceTU }

/-- `transformations["reverse_slice"]` of codegen/pipeline.go, fragments verbatim. -/
def t_reverse_slice : Transformation := {
  recv := "[]#T",
  ret := "[]#T",
  outline := "\n\tvar reversed []#T\n\t#next\n\tfor i, j := 0, len(reversed)-1; i < j; i, j = i+1, j-1 \x7b\n\t\treversed[i], reversed[j] = reversed[j], reversed[i]\n\t\x7d\n\treturn reversed\n",
  loop := "\n\tfor i := range recv \x7b\n\t\t#e := recv[len(recv)-i-1]\n\t\t#next\n\t\x7d\n",
  cons := "\n\t\treversed = append(reversed, #e)\n",
  typeFn := TypeRule.sliceElem }

/-- `transformations["take_slice"]` of codegen/pipeline.go, fragments verbatim. -/
def t_take_slice : Transformation := {
  recv := "[]#T",
  params := ["int"],
  ret := "[]#T",
  outline := "\n\tvar taken []#T\n\t#next\n\treturn taken\n",
  setup := "\n\tntaken#arg1 := 0\n\t#next\n",
  loop := "\n\tfor _, #e := range recv \x7b\n\t\t#next\n\t\x7d\n",
  op := "\n\t\tif ntaken#arg1++; ntaken#arg1 > #arg1 \x7b\n\t\t\tbreak\n\t\t\x7d\n\t\t#next\n",
  cons := "\n\t\ttaken = append(taken, #e)\n",
  typeFn := TypeRule.sliceElem }

/-- `transformations["takeWhile_slice"]` of codegen/pipeline.go, fragments verbatim. -/
def t_takeWhile_slice : Transformation := {
  recv := "[]#T",
  params := ["func(#T) bool"],
  ret := "[]#T",
  outline := "\n\tvar taken []#T\n\t#next\n\treturn taken\n",
  loop := "\n\tfor _, #e := range recv \x7b\n\t\t#next\n\t\x7d\n",
  op := "\n\t\tif !arg1(#e) \x7b\n\t\t\tbreak\n\t\t\x7d\n\t\t#next\n",
  cons := "\n\t\ttaken = append(taken, #e)\n",
  typeFn := TypeRule.sliceElem }

/-- `transformations["tee_slice"]` of codegen/pipeline.go, fragments verbatim. -/
def t_tee_slice : Transformation := {
  recv := "[]#T",
  params := ["func(#T)"],
  ret := "[]#T",
  outline := "\n\t#next\n\treturn recv\n",
  loop := "\n\tfor _, #e := range recv \x7b\n\t\t#next\n\t\x7d\n",
  op := "\n\t\t#arg1(#e)\n\t\t#next\n",
  typeFn := TypeRule.sliceElem }

/-- `transformations["toSet_slice"]` of codegen/pipeline.go, fragments verbatim. -/
def t_toSet_slice : Transformation := {
  recv := "[]#T",
  ret := "map[#T]struct\x7b\x7d",
  outline := "\n\tset := make(map[#T]struct\x7b\x7d)\n\t#next\n\treturn set\n",
  loop := "\n\tfor _, #e := range recv \x7b\n\t\t#next\n\t\x7d\n",
  cons := "\n\t\tset[#e] = struct\x7b\x7d\x7b\x7d\n",
  typeFn := TypeRule.sliceElem }

/-- `transformations["elems_map"]` of codegen/pipeline.go, fragments verbatim. -/
def t_elems_map : Transformation := {
  recv := "map[#T]#U",
  ret := "[]#U",
  outline := "\n\tvar elems []#U\n\t#next\n\treturn elems\n",
  loop := "\n\tfor _, #e := range recv \x7b\n\t\t#next\n\t\x7d\n",
  cons := "\n\t\telems = append(elems, #e)\n",
  typeFn := TypeRule.mapKeyElem }

/-- `transformations["filter_map"]` of codegen/pipeline.go, fragments verbatim. -/
def t_filter_map : Transformation := {
  recv := "map[#T]#U",
  params := ["func(#T, #U) bool"],
  ret := "map[#T]#U",
  outline := "\n\tfiltered := make(map[#T]#U)\n\t#next\n\treturn filtered\n",
  loop := "\n\tfor #k, #e := range recv \x7b\n\t\t#next\n\t\x7d\n",
  op := "\n\t\tif !#arg1(#k, #e) \x7b\n\t\t\tcontinue\n\t\t\x7d\n\t\t#next\n",
  cons := "\n\t\tfiltered[#k] = #e\n",
  typeFn := TypeRule.mapKeyElem }

/-- `transformations["keys_map"]` of codegen/pipeline.go, fragments verbatim. -/
def t_keys_map : Transformation := {
  recv := "map[#T]#U",
  ret := "[]#T",
  outline := "\n\tvar keys []#T\n\t#next\n\treturn keys\n",
  loop := "\n\tfor #e := range recv \x7b\n\t\t#next\n\t\x7d\n",
  cons := "\n\t\tkeys = append(keys, #e)\n",
  typeFn := TypeRule.mapKeyElem }

/-- `transformations["morph_map"]` of codegen/pipeline.go, fragments verbatim. -/
def t_morph_map : Transformation := {
  recv := "map[#T]#U",
  params := ["func(#T, #U) (#V, #W)"],
  ret := "map[#V]#W",
  outline := "\n\tmorphed := make(map[#V]#W)\n\t#next\n\treturn morphed\n",
  loop := "\n\tfor #k, #e := range recv \x7b\n\t\t#next\n\t\x7d\n",
  op := "\n\t\t#+k, #+e := #arg1(#k, #e)\n\t\t#next\n",
  cons := "\n\t\tmorphed[#k] = #e\n",
  typeFn := TypeRule.morphMapTUVW }

/-- The `transformations` registry map of codegen/pipeline.go. -/
def transformations : String → Option Transformation
  | "all_slice" => some t_all_slice
  | "any_slice" => some t_any_slice
  | "contains_slice" => some t_contains_slice
  | "containsNil_slice" => some t_containsNil_slice
  | "drop_slice" => some t_drop_slice
  | "dropWhile_slice" => some t_dropWhile_slice
  | "filter_slice" => some t_filter_slice
  | "fold_slice" => some t_fold_slice
  | "fold1_slice" => some t_fold1_slice
  | "foreach_slice" => some t_foreach_slice
  | "morph_slice" => some t_morph_slice
  | "reverse_slice" => some t_reverse_slice
  | "take_slice" => some t_take_slice
  | "takeWhile_slice" => some t_takeWhile_slice
  | "tee_slice" => some t_tee_slice
  | "toSet_slice" => some t_toSet_slice
  | "elems_map" => some t_elems_map
  | "filter_map" => some t_filter_map
  | "keys_map" => some t_keys_map
  | "morph_map" => some t_morph_map
  | _ => none

/-! ## Template specialization and fragment assembly (codegen/pipeline.go) -/

/-- The per-fragment substitution done inside `transformation.specify`:
replace each type placeholder `#T`, `#U`, ... by the resolved type
(`typs`, in `typeFn`-return order), replace each argument placeholder
`#arg(i+1)` (one per declared call argument, `numArgs` of them) by the
globally offset identifier `__plyarg_(i+nargs)`, then trim whitespace. -/
def substTempl (typs : List String) (numArgs nargs : Nat) (s : String) : String :=
  let s := typs.enum.foldl
    (fun acc pr => grepl acc ("#" ++ (Char.ofNat ('T'.toNat + pr.1)).toString) pr.2) s
  let s := (List.range numArgs).foldl
    (fun acc i => grepl acc ("#arg" ++ toString (i + 1)) ("__plyarg_" ++ toString (i + nargs))) s
  trimSpace s

/-- `transformation.specify` (codegen/pipeline.go, value receiver): apply
`substTempl` to every fragment, the receiver/result types and a private
copy of the params list.  `numArgs` is `len(call.Args)` and `info` the
type-oracle data `typeFn` reads at this call. -/
def Transformation.specify (t : Transformation) (info : CallInfo) (numArgs nargs : Nat) :
    Transformation :=
  let f := substTempl (t.typeFn.run info) numArgs nargs
  { t with recv := f t.recv, ret := f t.ret, outline := f t.outline, setup := f t.setup,
           loop := f t.loop, op := f t.op, cons := f t.cons, params := t.params.map f }

/-- `safePipeName`: the counter-backed pipeline namer.  The Go closure
increments a captured counter and returns `"__plypipe_" + Itoa(count)`;
here the counter is explicit state. -/
def safePipeName (count : Nat) : String × Nat :=
  ("__plypipe_" ++ toString (count + 1), count + 1)

/-- The fresh-variable counters of a `pipeline` (`kn`, `en`). -/
structure PipeState where
  kn : Nat
  en : Nat
  deriving Repr, DecidableEq

/-- `(*pipeline).addSector`: splice `inner` at the `#next` directive of
`outer` and perform the `#e` / `#+e` / `#k` / `#+k` substitutions.  NB the
`#+k` branch of the source builds the replacement from `p.en`, not `p.kn`
(codegen/pipeline.go line 204); the embedding reproduces that. -/
def addSector (p : PipeState) (outer inner : String) : PipeState × String :=
  if inner = "" then (p, outer)
  else
    let code := grepl1 outer "#next" inner
    let code := grepl code "#e" ("e" ++ toString p.en)
    let (p, code) :=
      if gcontains code "#+e" then
        let p := { p with en := p.en + 1 }
        (p, grepl code "#+e" ("e" ++ toString p.en))
      else (p, code)
    let code := grepl code "#k" ("k" ++ toString p.kn)
    let (p, code) :=
      if gcontains code "#+k" then
        let p := { p with kn := p.kn + 1 }
        (p, grepl code "#+k" ("k" ++ toString p.en))
      else (p, code)
    (p, code)

/-- The assembled method body of `(*pipeline).gen`: outline of the last
transformation, then every setup, the first transformation's loop, every
op, and the last transformation's cons, each spliced with `addSector`. -/
def pipelineBody (ts : List Transformation) : String :=
  let first := ts.headD default
  let last := ts.getLastD default
  let st : PipeState := { kn := 1, en := 1 }
  let code := last.outline
  let (st, code) := ts.foldl (fun pr fn => addSector pr.1 pr.2 fn.setup) (st, code)
  let (st, code) := addSector st code first.loop
  let (st, code) := ts.foldl (fun pr fn => addSector pr.1 pr.2 fn.op) (st, code)
  let (_, code) := addSector st code last.cons
  code

/-- The formal-parameter list built by `(*pipeline).gen`: the params of
every transformation in chain order, numbered by running position. -/
def pipelineParams (ts : List Transformation) : List String :=
  ts.foldl
    (fun params t =>
      t.params.foldl
        (fun params paramType =>
          params ++ ["__plyarg_" ++ toString params.length ++ " " ++ paramType])
        params)
    []

/-- `(*pipeline).gen` without the AST rewriter: returns the generated name
and the full generated declaration text, threading the `safePipeName`
counter. -/
def pipelineGen (ts : List Transformation) (count : Nat) : String × String × Nat :=
  let first := ts.headD default
  let last := ts.getLastD default
  let body := pipelineBody ts
  let (name, count) := safePipeName count
  let code := multiReplace
    [("#name", name), ("#T", first.recv), ("#params", goJoin ", " (pipelineParams ts)),
     ("#ret", last.ret), ("#body", body)]
    "\ntype #name #T\n\nfunc (recv #name) pipeline(#params) #ret \x7b\n\t#body\n\x7d\n"
  (name, code, count)

/-! ## Chain recognition (buildPipeline, codegen/pipeline.go)

`buildPipeline` walks the chain (outermost call first), consulting the
type oracle for each link's receiver.  A link of the chain is abstracted
as the oracle data the walk reads: whether `exprTypes` knows the receiver
(`typeKnown`), whether its underlying type is a slice or a map, the
selector name, the number of call arguments, the receiver type's method
set (for `hasMethod`), and the resolved types `specify` will use.  The
`call == chain[0]` pointer comparison of the source holds exactly for the
first iteration, because distinct AST call nodes are distinct pointers;
the embedding tracks that with `isFirst`. -/

structure ChainCall where
  typeKnown : Bool := true
  isSlice : Bool := false
  isMap : Bool := false
  selName : String
  numArgs : Nat := 0
  methodSet : List String := []
  info : CallInfo := {}
  deriving Repr, DecidableEq

/-- `hasMethod(e.X, methodName, exprTypes)`: whether the receiver type's
method set contains `method` (codegen package). -/
def hasMethod (c : ChainCall) (method : String) : Bool :=
  c.methodSet.contains method

/-- The method name `buildPipeline` first computes for one link: the
selector name plus the receiver-kind suffix.  This is the name the
override check `hasMethod` is given. -/
def suffixedMethodName (c : ChainCall) : String :=
  c.selName ++ (if c.isSlice then "_slice" else if c.isMap then "_map" else "")

/-- The registry key `buildPipeline` looks up: the suffixed name, with a
one-argument `fold_slice` call redirected to `fold1_slice` (the redirect
happens after the override check). -/
def resolveMethodName (c : ChainCall) : String :=
  if suffixedMethodName c = "fold_slice" ∧ c.numArgs = 1 then "fold1_slice"
  else suffixedMethodName c

/-- The scanning loop of `buildPipeline`.  Each accepted link is prepended
to `ts` (the chain arrives outermost-first and is un-reversed on the fly);
the entry keeps the registry key alongside the transformation and link so
that the theorems can identify `reverse_slice` entries.  Early `break`s
return the accumulated list. -/
def buildLoop : List ChainCall → Bool → Bool → List (String × Transformation × ChainCall) →
    List (String × Transformation × ChainCall)
  | [], _, _, ts => ts
  | call :: rest, isFirst, haveReverse, ts =>
    if ¬ call.typeKnown then ts
    else if ¬ (call.isSlice || call.isMap) then ts
    else
      if hasMethod call (suffixedMethodName call) then ts
      else
        let methodName := resolveMethodName call
        match transformations methodName with
        | none => ts
        | some t =>
          let ts := (methodName, t, call) :: ts
          if methodName = "reverse_slice" then
            if haveReverse then ts.tail
            else if isFirst then buildLoop rest false true ts
            else ts
          else buildLoop rest false haveReverse ts

/-- The specification pass at the end of `buildPipeline`: specify each
collected transformation in forward order, accumulating the global
argument offset `nargs`. -/
def specifyChain : Nat → List (String × Transformation × ChainCall) → List Transformation
  | _, [] => []
  | nargs, (_, t, c) :: rest => t.specify c.info c.numArgs nargs :: specifyChain (nargs + c.numArgs) rest

/-- `buildPipeline(chain, exprTypes)`: `none` when fewer than two
operations were collected, otherwise the chain of specified
transformations (still paired with their registry keys and links). -/
def buildPipeline (chain : List ChainCall) :
    Option (List (String × Transformation × ChainCall) × List Transformation) :=
  let ts := buildLoop chain true false []
  if ts.length < 2 then none
  else some (ts, specifyChain 0 ts)

/-! ## Single-operation generators (gen.go / codegen/gen.go) -/

/-- Semantics of the code generated from `fold1Templ` (gen.go): the
one-argument fold.  The generated Go is
`if len(xs) == 0 { panic("fold of empty slice") }; acc := xs[0];
for _, x := range xs { acc = fn(acc, x) }; return acc`;
`none` stands for the panic.  (Faithful to gen.go, whose loop ranges over
all of `xs`, seeding included; the codegen variant ranges over `xs[1:]`.) -/
def fold1Impl {α : Type} (f : α → α → α) : List α → Option α
  | [] => none
  | x :: rest => some ((x :: rest).foldl f x)

/-- `foldGen` template selection (gen.go lines 509-523): chosen from
`len(args)` alone. -/
def foldGenTemplate (numArgs : Nat) : String :=
  if numArgs = 1 then "fold1_slice" else if numArgs = 2 then "fold_slice" else ""

/-! ## Semantics of the fused tee-then-all pipeline

`pipelineBody` for the chain `xs.tee(f).all(p)` assembles (see the
concrete equality proved in claim C6)

  for _, e1 := range recv {
      __plyarg_0(e1)
      if !__plyarg_1(e1) {
          return false
      }
  }
  return true

`teeAllFused p xs` returns the number of invocations of the side-effecting
argument `__plyarg_0` together with the returned Bool when that loop runs
on `xs`. -/
def teeAllFused {α : Type} (p : α → Bool) : List α → Nat × Bool
  | [] => (0, true)
  | x :: rest =>
    if !(p x) then (1, false)
    else
      let r := teeAllFused p rest
      (r.1 + 1, r.2)

/-- Semantics of the unfused `all` (allTempl, codegen/gen.go):
`for _, x := range xs { if !pred(x) { return false } }; return true`;
returns how many elements the loop examined and the result. -/
def allExamine {α : Type} (p : α → Bool) : List α → Nat × Bool
  | [] => (0, true)
  | x :: rest =>
    if !(p x) then (1, false)
    else
      let r := allExamine p rest
      (r.1 + 1, r.2)

/-! ## Declaration registry and call-site rewriting
(specializer, codegen package) -/

/-- The declaration state of a `specializer`: the package name and
`s.pkg.Files`, the auxiliary unit's files keyed by generated name. -/
structure Specializer where
  pkgName : String
  files : List (String × String)
  deriving Repr, DecidableEq

/-- `specializer.addDecl(filename, code)`: return unchanged if a file of
that name exists, else prepend the package header and store the parsed
file under `filename` (parsing is the external Go parser; the stored
value is its input text). -/
def addDecl (s : Specializer) (filename code : String) : Specializer :=
  if (s.files.lookup filename).isSome then s
  else { s with files := s.files ++ [(filename, "package " ++ s.pkgName ++ code)] }

/-- A minimal Go expression AST for the call-site rewriters. -/
inductive GoExpr where
  | ident : String → GoExpr
  | call : GoExpr → List GoExpr → GoExpr
  | sel : GoExpr → String → GoExpr
  deriving Repr

/-- `funcGenerators`' domain (codegen/gen.go). -/
def funcGeneratorNames : List String := ["max", "merge", "min", "not", "zip"]

/-- The `*ast.Ident` case of `specializer.Rewrite` (codegen version,
lines 98-112 together with the named-type wrap of lines 140-148):
`value` is `s.types[n].Value` (the constant the oracle folded the call
to, as `ExactString`), `genName`/`genCode` the output of the registered
generator for this call, `namedType` the call's named result type when it
has one.  In the constant branch the node becomes `ast.NewIdent(v)`,
nothing is declared, and `rewrote` stays false so the named-type wrap is
skipped. -/
def rewriteIdentCall (s : Specializer) (n : GoExpr) (fnName : String) (args : List GoExpr)
    (value : Option String) (namedType : Option String) (genName genCode : String) :
    Specializer × GoExpr :=
  if funcGeneratorNames.contains fnName then
    match value with
    | some v => (s, GoExpr.ident v)
    | none =>
      let s := addDecl s genName genCode
      let node := GoExpr.call (GoExpr.ident genName) args
      match namedType with
      | some named => (s, GoExpr.call (GoExpr.ident named) [node])
      | none => (s, node)
  else (s, n)

/-- One pipeline-eligible call site, as `specializer.Visit` processes it:
recognize the chain, generate, insert the declaration, and hand back the
generated name the rewriter splices into the call site. -/
def compilePipelineSite (s : Specializer) (count : Nat) (chain : List ChainCall) :
    Specializer × Nat × Option String :=
  match buildPipeline chain with
  | some pr =>
    let (name, code, count2) := pipelineGen pr.2 count
    (addDecl s name code, count2, some name)
  | none => (s, count, none)

/-! ## Name generation (gen.go nextSuffix / safePipeName) -/

/-- One step of the linear congruential generator in `nextSuffix`
(gen.go line 80): `rand = rand*1664525 + 1013904223` on `uint32`. -/
def lcgNext (r : Nat) : Nat := (r * 1664525 + 1013904223) % 4294967296

/-- The LCG state after `n` invocations from seed `s`. -/
def lcgIter (s : Nat) : Nat → Nat
  | 0 => s
  | n + 1 => lcgNext (lcgIter s n)

/-- The string the `n`-th invocation of `nextSuffix` returns from seed
`s`: `strconv.Itoa(int(1e9 + rand%1e9))[1:]`. -/
def nextSuffixAt (s n : Nat) : String :=
  (toString (1000000000 + lcgIter s n % 1000000000)).drop 1

/-- `randFnName(name)` at the `n`-th `nextSuffix` invocation. -/
def randFnNameAt (name : String) (s n : Nat) : String :=
  "__plyfn_" ++ name ++ "_" ++ nextSuffixAt s n

/-- The character list of a decimal numeral, without fuel. -/
def natChars (n : Nat) : List Char :=
  if _h : n < 10 then [Nat.digitChar n]
  else natChars (n / 10) ++ [Nat.digitChar (n % 10)]
decreasing_by exact Nat.div_lt_self (by omega) (by omega)

/-! ## Memory model of `transformation.specify`

The Go `transformations` registry hands out struct values whose `params`
field is a slice header into a shared backing array.  To make the purity
of `specify` a contentful statement, slices of strings live in an
explicit arena (`Heap`) and a `TransformationMem` holds the arena index
its `params` header points at.  `specifyMem` performs exactly the Go
statements of the codegen `specify` (value receiver): `s := t` copies the
struct (sharing the params array), `s.params = append([]string(nil),
t.params...)` allocates a fresh array with copied contents, and the
`templs` loop writes the substituted strings through the local struct's
fields and the fresh array's cells. -/

abbrev Heap := List (List String)

/-- Read the array at arena index `i`. -/
def heapGet (h : Heap) (i : Nat) : List String := (h[i]?).getD []

/-- A `transformation` value as laid out in Go memory: `paramsId` is the
arena index its `params` slice header points at. -/
structure TransformationMem where
  recv : String
  ret : String
  outline : String
  setup : String
  loop : String
  op : String
  cons : String
  typeFn : TypeRule
  paramsId : Nat
  deriving Repr, DecidableEq

/-- The observable value of a stored transformation: its fields with the
params read out of the arena. -/
def observe (h : Heap) (t : TransformationMem) : Transformation :=
  { recv := t.recv, params := heapGet h t.paramsId, ret := t.ret, outline := t.outline,
    setup := t.setup, loop := t.loop, op := t.op, cons := t.cons, typeFn := t.typeFn }

/-- `transformation.specify` on the memory model. -/
def specifyMem (h : Heap) (t : TransformationMem) (info : CallInfo) (numArgs nargs : Nat) :
    Heap × TransformationMem :=
  let newId := h.length
  let h1 := h ++ [heapGet h t.paramsId]
  let f := substTempl (t.typeFn.run info) numArgs nargs
  let h2 := h1.set newId ((heapGet h1 newId).map f)
  (h2, { t with recv := f t.recv, ret := f t.ret, outline := f t.outline, setup := f t.setup,
                loop := f t.loop, op := f t.op, cons := f t.cons, paramsId := newId })

/-- The per-fragment substitution of the main-package
`(*transformation).specify` (pipeline.go lines 141-158): types and
argument markers only — that version has no whitespace trim. -/
def substTemplMain (typs : List String) (numArgs nargs : Nat) (s : String) : String :=
  let s := typs.enum.foldl
    (fun acc pr => grepl acc ("#" ++ (Char.ofNat ('T'.toNat + pr.1)).toString) pr.2) s
  (List.range numArgs).foldl
    (fun acc i => grepl acc ("#arg" ++ toString (i + 1)) ("__plyarg_" ++ toString (i + nargs))) s

/-- The main-package `(*transformation).specify` on the memory model: the
pointer receiver takes no struct copy and no params copy; `templs`
collects `&t.recv` .. `&t.cons` and `&t.params[i]`, so the substituted
strings are written through the caller's struct fields and through the
params backing array the map value shares with the registry's stored
master entry.  The returned struct stands for the mutated `*t`; its
`paramsId` is unchanged and the shared arena cell is overwritten. -/
def specifyMemMain (h : Heap) (t : TransformationMem) (info : CallInfo) (numArgs nargs : Nat) :
    Heap × TransformationMem :=
  let f := substTemplMain (t.typeFn.run info) numArgs nargs
  let h2 := h.set t.paramsId ((heapGet h t.paramsId).map f)
  (h2, { t with recv := f t.recv, ret := f t.ret, outline := f t.outline, setup := f t.setup,
                loop := f t.loop, op := f t.op, cons := f t.cons })

/-- The main-package `transformations["filter"]` entry as laid out in
memory, its shared params array stored at arena cell 0 (fragments
verbatim from pipeline.go lines 440-465). -/
def t_filter_main_mem : TransformationMem :=
  { recv := "[]#T",
    ret := "[]#T",
    outline := "\n\tvar filtered []#T\n\t#next\n\treturn filtered\n",
    setup := "",
    loop := "\n\tfor _, x1 := range xs \x7b\n\t\t#next\n\t\x7d\n",
    op := "\n\t\tif !#arg1(#x) \x7b\n\t\t\tcontinue\n\t\t\x7d\n\t\t#next\n",
    cons := "\n\t\tfiltered = append(filtered, #x)\n",
    typeFn := TypeRule.sliceElem,
    paramsId := 0 }

/-! ## Concrete call sites

Oracle data for chains over `[]int` and `map[int]int`, matching the
pipeline tests of the codegen package. -/

def infoInt : CallInfo := { recvSliceElem := "int" }

def infoMorphInt : CallInfo :=
  { recvSliceElem := "int", arg0Params := ["int"], arg0Results := ["int"] }

def infoMapII : CallInfo := { recvMapKey := "int", recvMapElem := "int" }

def infoMorphMapII : CallInfo :=
  { recvMapKey := "int", recvMapElem := "int",
    arg0Params := ["int", "int"], arg0Results := ["int", "int"] }

def cFilter : ChainCall := { selName := "filter", isSlice := true, numArgs := 1, info := infoInt }

def cMorph : ChainCall := { selName := "morph", isSlice := true, numArgs := 1, info := infoMorphInt }

def cTakeWhile : ChainCall :=
  { selName := "takeWhile", isSlice := true, numArgs := 1, info := infoInt }

def cAll : ChainCall := { selName := "all", isSlice := true, numArgs := 1, info := infoInt }

def cTee : ChainCall := { selName := "tee", isSlice := true, numArgs := 1, info := infoInt }

def cReverse : ChainCall := { selName := "reverse", isSlice := true, numArgs := 0, info := infoInt }

def cToSet : ChainCall := { selName := "toSet", isSlice := true, numArgs := 0, info := infoInt }

def cFilterMap : ChainCall := { selName := "filter", isMap := true, numArgs := 1, info := infoMapII }

def cElems : ChainCall := { selName := "elems", isMap := true, numArgs := 0, info := infoMapII }

def cMorphMap : ChainCall := { selName := "morph", isMap := true, numArgs := 1, info := infoMorphMapII }

/-- The `filter` link of a receiver whose type declares its own `filter`
method (the `ints` type of the codegen tests). -/
def cFilterOverride : ChainCall :=
  { selName := "filter", isSlice := true, numArgs := 1, methodSet := ["filter"], info := infoInt }

/-- A one-argument `fold` call on `[]int`. -/
def cFold1 : ChainCall :=
  { selName := "fold", isSlice := true, numArgs := 1,
    info := { recvSliceElem := "int", arg0Params := ["int", "int"], arg0Results := ["int"] } }

/-- The worked example of the codegen/pipeline.go header comment:
`xs.takeWhile(even).morph(square).filter(lessThan100)`, outermost call
first as `specializer.Visit` collects it. -/
def docChain : List ChainCall := [cFilter, cMorph, cTakeWhile]

/-- The declaration generated for `docChain`. -/
def docChainCode : String :=
  match buildPipeline docChain with
  | some pr => (pipelineGen pr.2 0).2.1
  | none => ""

/-- `xs.tee(side).all(lt3)`, the chain of TestPipeline. -/
def teeAllChain : List ChainCall := [cAll, cTee]

/-- The declaration generated for `teeAllChain`. -/
def teeAllChainCode : String :=
  match buildPipeline teeAllChain with
  | some pr => (pipelineGen pr.2 0).2.1
  | none => ""

/-- `m.filter(p).elems().morph(f).toSet().morph(g)`: a chain the
recognizer accepts in which the element counter has advanced past the key
counter when the `morph_map` op is spliced. -/
def keyBugChain : List ChainCall := [cMorphMap, cToSet, cMorph, cElems, cFilterMap]

/-- The declaration generated for `keyBugChain`. -/
def keyBugChainCode : String :=
  match buildPipeline keyBugChain with
  | some pr => (pipelineGen pr.2 0).2.1
  | none => ""

/-- `ints{...}.filter(f).morph(g)` where `ints` declares its own
`filter`. -/
def overrideChain : List ChainCall := [cMorph, cFilterOverride]

/-! ## Claims -/

/-- The empty declaration state at the start of a compilation. -/
def site0 : Specializer := { pkgName := "main", files := [] }

/-- Compiling two call sites with the identical chain
`xs.tee(side).all(lt3)`: the first site. -/
def teeAllSite1 : Specializer × Nat × Option String := compilePipelineSite site0 0 teeAllChain

/-- The second, identical call site. -/
def teeAllSite2 : Specializer × Nat × Option String :=
  compilePipelineSite teeAllSite1.1 teeAllSite1.2.1 teeAllChain

/-! ## The single-reversal invariant of the chain recognizer -/

/-- One collected chain entry: registry key, transformation, call. -/
abbrev PipeEntry := String × Transformation × ChainCall

/-- How many collected entries are the reversing operation. -/
def reverseCount (ts : List PipeEntry) : Nat :=
  (ts.filter (fun e => e.1 = "reverse_slice")).length

/-- No collected entry is the reversing operation. -/
def NoRev (ts : List PipeEntry) : Prop :=
  ∀ e ∈ ts, e.1 ≠ "reverse_slice"

/-- Any reversing entry sits at the first or the last position. -/
def RevAtEnds (ts : List PipeEntry) : Prop :=
  ∀ i (h : i < ts.length), (ts.get ⟨i, h⟩).1 = "reverse_slice" →
    i = 0 ∨ i = ts.length - 1

/-- The conjunction the claim asserts of every finalized chain. -/
def GoodChain (ts : List PipeEntry) : Prop :=
  reverseCount ts ≤ 1 ∧ RevAtEnds ts

/-- The state invariant of the scanning loop: before haveReverse is set no
reversing entry has been collected; once it is set, the chain ends in the
single reversing entry; and on the first iteration the chain is empty
with the flag clear. -/
def BuildInv (first hr : Bool) (ts : List PipeEntry) : Prop :=
  (hr = false → NoRev ts) ∧
  (hr = true → ∃ ts' r, ts = ts' ++ [r] ∧ r.1 = "reverse_slice" ∧ NoRev ts') ∧
  (first = true → ts = [] ∧ hr = false)

/-- A chain whose outermost two links are `filter` then `reverse`: the
walk stops at the reversal, leaving it at the head of the finalized
chain. -/
def revChainEx : List ChainCall := [cFilter, cReverse, cTakeWhile]

/-- The pipeline the recognizer builds for `revChainEx`. -/
def revChainExResult : List PipeEntry × List Transformation :=
  (buildPipeline revChainEx).getD ([], [])

/-- The arena holding only the master filter params array. -/
def c9MasterHeap : Heap := [["func(#T) bool"]]

/-- A `[]string` receiver at a second call site. -/
def infoString : CallInfo := { recvSliceElem := "string" }

/-- Site 1: specifying the main-package filter template for a `[]int`
chain. -/
def c9Site1 : Heap × TransformationMem :=
  specifyMemMain c9MasterHeap t_filter_main_mem infoInt 1 0

/-- Site 2 compiled after site 1, on a `[]string` chain. -/
def c9Site2After : Heap × TransformationMem :=
  specifyMemMain c9Site1.1 t_filter_main_mem infoString 1 0

/-- Site 2 compiled against the pristine registry. -/
def c9Site2Fresh : Heap × TransformationMem :=
  specifyMemMain c9MasterHeap t_filter_main_mem infoString 1 0

/-! ## Theorems -/

example : grepl "a#next b #next" "#next" "X" = "aX b X" := by decide

example : grepl1 "a#next b #next" "#next" "X" = "aX b #next" := by decide

example : gcontains "qq#+eqq" "#+e" = true := by decide

example : trimSpace "\n\t ab c\n " = "ab c" := by decide

example : multiReplace [("#T", "[]int"), ("#b", "B")] "x #T #b" = "x []int B" := by decide

/-! ## Injectivity of decimal numerals

`safePipeName` builds names with `strconv.Itoa` of a strictly increasing
counter; its collision-freedom reduces to injectivity of the decimal
representation, which core and Mathlib do not provide, so it is proved
here via a fuel-free digit function. -/

lemma digitChar_inj_lt10 :
    ∀ a ∈ Finset.range 10, ∀ b ∈ Finset.range 10,
      Nat.digitChar a = Nat.digitChar b → a = b := by decide

lemma natChars_lt {n : Nat} (h : n < 10) : natChars n = [Nat.digitChar n] := by
  rw [natChars]; exact dif_pos h

lemma natChars_ge {n : Nat} (h : ¬ n < 10) :
    natChars n = natChars (n / 10) ++ [Nat.digitChar (n % 10)] := by
  conv_lhs => rw [natChars]
  rw [dif_neg h]

lemma natChars_ne_nil (n : Nat) : natChars n ≠ [] := by
  rw [natChars]
  split <;> simp

lemma toDigitsCore_eq_natChars :
    ∀ (f n : Nat) (acc : List Char), n < f →
      Nat.toDigitsCore 10 f n acc = natChars n ++ acc := by
  intro f
  induction f with
  | zero => intro n acc h; omega
  | succ f ih =>
    intro n acc h
    rw [Nat.toDigitsCore]
    by_cases h10 : n / 10 = 0
    · rw [if_pos h10, natChars_lt (by omega)]
      have : n % 10 = n := Nat.mod_eq_of_lt (by omega)
      simp [this]
    · rw [if_neg h10]
      have hlt : n / 10 < f := by
        have := Nat.div_lt_self (by omega : 0 < n) (by omega : 1 < 10)
        omega
      rw [ih (n / 10) _ hlt]
      conv_rhs => rw [natChars_ge (show ¬ n < 10 by omega)]
      simp

lemma natChars_inj : ∀ n m, natChars n = natChars m → n = m := by
  intro n
  induction n using Nat.strong_induction_on with
  | _ n ih =>
    intro m h
    by_cases hn : n < 10 <;> by_cases hm : m < 10
    · rw [natChars_lt hn, natChars_lt hm] at h
      simp only [List.cons.injEq, and_true] at h
      exact digitChar_inj_lt10 n (Finset.mem_range.2 hn) m (Finset.mem_range.2 hm) h
    · rw [natChars_lt hn, natChars_ge hm] at h
      have hlen := congrArg List.length h
      simp only [List.length_append, List.length_cons, List.length_nil] at hlen
      have : natChars (m / 10) = [] := List.eq_nil_of_length_eq_zero (by omega)
      exact absurd this (natChars_ne_nil _)
    · rw [natChars_ge hn, natChars_lt hm] at h
      have hlen := congrArg List.length h
      simp only [List.length_append, List.length_cons, List.length_nil] at hlen
      have : natChars (n / 10) = [] := List.eq_nil_of_length_eq_zero (by omega)
      exact absurd this (natChars_ne_nil _)
    · rw [natChars_ge hn, natChars_ge hm] at h
      have hrev := congrArg List.reverse h
      simp only [List.reverse_append, List.reverse_cons, List.reverse_nil, List.nil_append,
        List.singleton_append, List.cons.injEq] at hrev
      obtain ⟨hd, ht⟩ := hrev
      have hdig : n % 10 = m % 10 :=
        digitChar_inj_lt10 _ (Finset.mem_range.2 (Nat.mod_lt _ (by omega))) _
          (Finset.mem_range.2 (Nat.mod_lt _ (by omega))) hd
      have hdiv : n / 10 = m / 10 :=
        ih (n / 10) (Nat.div_lt_self (by omega) (by omega)) (m / 10)
          (List.reverse_injective ht)
      omega

/-- `Nat.repr` is injective: distinct numbers print as distinct decimal
strings. -/
lemma nat_repr_inj : ∀ n m : Nat, Nat.repr n = Nat.repr m → n = m := by
  intro n m h
  have h2 : Nat.toDigits 10 n = Nat.toDigits 10 m := by
    have := congrArg String.data h
    simpa [Nat.repr, List.asString] using this
  rw [Nat.toDigits, Nat.toDigits, toDigitsCore_eq_natChars (n + 1) n [] (by omega),
    toDigitsCore_eq_natChars (m + 1) m [] (by omega)] at h2
  simpa using natChars_inj n m (by simpa using h2)

/-- C1: the fused implementation is claimed observably equivalent to the
sequential unfused implementations for every fusible chain.  It is not:
the `takeWhile_slice` op fragment writes `arg1` where every other
fragment writes the `#arg1` marker, so `specify` never substitutes it.
For the chain documented in the header comment of codegen/pipeline.go
(`xs.takeWhile(even).morph(square).filter(lessThan100)`), the generated
declaration binds the predicate to the parameter `__plyarg_0` but the
loop body calls a free identifier `arg1` and never reads `__plyarg_0`, so
the generated code cannot compute what the unfused `takeWhile` computes
(it does not even compile). -/
theorem c1_takeWhile_arg_marker_unsubstituted :
    (buildPipeline docChain).isSome = true ∧
    gcontains docChainCode "__plyarg_0 func(int) bool" = true ∧
    gcontains docChainCode "if !arg1(e1)" = true ∧
    gcontains docChainCode "__plyarg_0(" = false := by
  decide

/-- C3: a chain link whose receiver type declares a method with the same
name as the fusible operation is claimed never to be fused.  The
recognizer checks the method set for the suffixed registry key
(`filter_slice`), not for the selector (`filter`), so the override goes
undetected and the user's call is fused away: for
`ints{...}.filter(f).morph(g)` with `ints` declaring `filter`, the
pipeline is built and includes the overridden link. -/
theorem c3_override_link_fused_anyway :
    cFilterOverride.methodSet.contains cFilterOverride.selName = true ∧
    hasMethod cFilterOverride (suffixedMethodName cFilterOverride) = false ∧
    (buildPipeline overrideChain).map (fun pr => pr.1.map (fun e => e.1)) =
      some ["filter_slice", "morph_slice"] ∧
    (buildPipeline overrideChain).map (fun pr => pr.1.map (fun e => e.2.2)) =
      some [cFilterOverride, cMorph] := by
  decide

/-- C4: when an op introduces a new key variable, the fresh key name is
claimed to be derived from the incremented key counter.  The `#+k` branch
of `addSector` increments `kn` but builds the replacement from `en`: from
the state kn=1, en=2 the spliced `morph_map` op binds `k3` (en after its
bump) although the incremented key counter is 2, and the `cons` spliced
later reads `k2`, so the generated declaration for `keyBugChain` declares
`k3` and consumes an undefined `k2`. -/
theorem c4_key_var_numbered_by_element_counter :
    addSector ⟨1, 2⟩ "#next" "#+k, #+e := f(#k, #e)" = (⟨2, 3⟩, "k3, e3 := f(k1, e2)") ∧
    gcontains keyBugChainCode "k3, e3 := __plyarg_2(k1, e2)" = true ∧
    gcontains keyBugChainCode "morphed[k2] = e3" = true ∧
    gcontains keyBugChainCode "k2, e3 :=" = false := by
  decide

/-- C6: the fused pipeline for `xs.tee(side).all(lt3)` invokes the
side-effecting tee argument exactly as often as the unfused `all` loop
examines elements: the generated declaration is the loop embedded by
`teeAllFused`, on `{1,2,3,4,5}` with the predicate `< 3` the side effect
runs exactly 3 times and the result is false, and in general the fused
invocation count equals the unfused short-circuit examination count. -/
theorem c6_tee_all_side_effect_count :
    teeAllChainCode =
      "\ntype __plypipe_1 []int\n\nfunc (recv __plypipe_1) pipeline(__plyarg_0 func(int), __plyarg_1 func(int) bool) bool \x7b\n\tfor _, e1 := range recv \x7b\n\t\t__plyarg_0(e1)\n\t\tif !__plyarg_1(e1) \x7b\n\t\t\treturn false\n\t\t\x7d\n\t\x7d\n\treturn true\n\x7d\n" ∧
    teeAllFused (fun i => decide (i < 3)) [1, 2, 3, 4, 5] = (3, false) ∧
    ∀ (α : Type) (p : α → Bool) (xs : List α), teeAllFused p xs = allExamine p xs := by
  refine ⟨by decide, by decide, ?_⟩
  intro α p xs
  induction xs with
  | nil => rfl
  | cons x rest ih => simp [teeAllFused, allExamine, ih]

/-- Lookup in an association list always succeeds on a freshly appended
key. -/
lemma lookup_append_self (l : List (String × String)) (n x : String) :
    ((l ++ [(n, x)]).lookup n).isSome = true := by
  induction l with
  | nil => simp [List.lookup]
  | cons p l ih =>
    by_cases hp : n == p.1
    · simp [List.lookup, hp]
    · simp only [List.cons_append, List.lookup, hp]
      exact ih

/-- C7 counterexample: two call sites with the same concrete types and the
same chain do not produce exactly one generated declaration — the
pipeline namer hands each site a fresh name, so two declarations are
inserted. -/
theorem c7_counterexample_two_decls :
    ¬ (teeAllSite2.1.files.length = 1) := by
  decide

/-- C7 (amended): declaration insertion is idempotent per generated name
(re-inserting under an existing name is a no-op), but two call sites that
resolve to the same concrete types for the same chain receive distinct
generated names from the counter-based pipeline namer and therefore
produce two generated declarations, each call site rewritten to reference
its own. -/
theorem c7_addDecl_idempotent_names_fresh :
    (∀ (s : Specializer) (n c c2 : String), addDecl (addDecl s n c) n c2 = addDecl s n c) ∧
    teeAllSite2.1.files.length = 2 ∧
    teeAllSite1.2.2 = some "__plypipe_1" ∧
    teeAllSite2.2.2 = some "__plypipe_2" ∧
    teeAllSite1.2.2 ≠ teeAllSite2.2.2 := by
  refine ⟨?_, by decide, by decide, by decide, by decide⟩
  intro s n c c2
  by_cases h : (s.files.lookup n).isSome
  · simp [addDecl, h]
  · simp [addDecl, h, lookup_append_self]

/-- C8 counterexample: the pseudo-random suffix scheme of gen.go can
return the same name from two distinct invocations within one run.  With
the LCG seeded at 2799, invocation 479 and invocation 991 of
`nextSuffix` both yield the suffix 562154800, so two `max` call sites
would receive the identical generated name. -/
theorem c8_counterexample_suffix_collision :
    randFnNameAt "max" 2799 479 = randFnNameAt "max" 2799 991 ∧ (479 : Nat) ≠ 991 := by
  constructor
  · decide
  · decide

/-- C10: when the type oracle resolves a call to a registered
pseudo-generic builtin to a compile-time constant, `specializer.Rewrite`
replaces the whole call expression with an identifier holding the
constant's exact string and inserts no declaration: the specializer state
comes back unchanged. -/
theorem c10_constant_call_folded_no_decl :
    ∀ (s : Specializer) (n : GoExpr) (fnName : String) (args : List GoExpr)
      (v : String) (namedType : Option String) (genName genCode : String),
      funcGeneratorNames.contains fnName = true →
      rewriteIdentCall s n fnName args (some v) namedType genName genCode =
        (s, GoExpr.ident v) := by
  intro s n fnName args v namedType genName genCode h
  unfold rewriteIdentCall
  rw [h]
  rfl

/-- C10 witness: a `max` call the oracle folded to the constant 7. -/
theorem c10_witness :
    funcGeneratorNames.contains "max" = true ∧
    rewriteIdentCall site0 (GoExpr.ident "x") "max" [] (some "7") none "g" "c" =
      (site0, GoExpr.ident "7") :=
  ⟨by decide,
   c10_constant_call_folded_no_decl site0 (GoExpr.ident "x") "max" [] "7" none "g" "c"
     (by decide)⟩

/-- C5: a fold-like call with exactly one argument selects the
fold-from-first-element template.  In `buildPipeline` the registry key is
redirected from `fold_slice` to `fold1_slice` on argument count alone,
the key depends on nothing but the selector, the receiver kind and the
argument count (in particular on no resolved type), `foldGen` selects the
same template tags from `len(args)`, and the code generated from the
one-argument template panics exactly on the empty input sequence. -/
theorem c5_fold1_by_argcount_empty_panics :
    (∀ c : ChainCall, c.isSlice = true → c.selName = "fold" →
        ((c.numArgs = 1 → resolveMethodName c = "fold1_slice") ∧
         (c.numArgs = 2 → resolveMethodName c = "fold_slice"))) ∧
    (∀ c c2 : ChainCall, c.selName = c2.selName → c.isSlice = c2.isSlice →
        c.isMap = c2.isMap → c.numArgs = c2.numArgs →
        resolveMethodName c = resolveMethodName c2) ∧
    foldGenTemplate 1 = "fold1_slice" ∧ foldGenTemplate 2 = "fold_slice" ∧
    (∀ (α : Type) (f : α → α → α) (xs : List α), fold1Impl f xs = none ↔ xs = []) := by
  refine ⟨?_, ?_, by decide, by decide, ?_⟩
  · intro c h1 h2
    constructor
    · intro h3
      unfold resolveMethodName suffixedMethodName
      rw [h1, h2, h3]
      rfl
    · intro h3
      unfold resolveMethodName suffixedMethodName
      rw [h1, h2, h3]
      rfl
  · intro c c2 h1 h2 h3 h4
    unfold resolveMethodName suffixedMethodName
    rw [h1, h2, h3, h4]
  · intro α f xs
    cases xs <;> simp [fold1Impl]

/-- C5 witness: the one-argument fold call of the tests
(`ints{1,2,3}.fold(mul)`) keys `fold1_slice`, and the one-argument fold of
an empty slice panics. -/
theorem c5_witness :
    resolveMethodName cFold1 = "fold1_slice" ∧
    (fold1Impl (fun a b : Nat => a + b) [] = none ↔ ([] : List Nat) = []) :=
  ⟨(c5_fold1_by_argcount_empty_panics.1 cFold1 rfl rfl).1 rfl,
   c5_fold1_by_argcount_empty_panics.2.2.2.2 Nat (fun a b => a + b) []⟩

/-- C8 (amended): the counter-based pipeline namer is collision-free —
distinct counter states always yield distinct names — but the
pseudo-random suffix scheme of gen.go does not structurally guarantee
uniqueness: for some seed two distinct invocations of `nextSuffix`
return the same suffix. -/
theorem c8_counter_collision_free_random_not :
    (∀ i j : Nat, i ≠ j → (safePipeName i).1 ≠ (safePipeName j).1) ∧
    (∃ s i j : Nat, i ≠ j ∧ nextSuffixAt s i = nextSuffixAt s j) := by
  constructor
  · intro i j hij heq
    apply hij
    have hdata := congrArg String.data heq
    simp only [safePipeName, String.data_append] at hdata
    have hrepr : Nat.repr (i + 1) = Nat.repr (j + 1) := by
      apply congrArg String.mk
      exact List.append_cancel_left hdata
    have := nat_repr_inj (i + 1) (j + 1) hrepr
    omega
  · exact ⟨2799, 479, 991, by decide, by decide⟩

/-- C8 witness: the first two pipeline names are distinct. -/
theorem c8_witness :
    (0 : Nat) ≠ 1 ∧ (safePipeName 0).1 ≠ (safePipeName 1).1 :=
  ⟨by decide, c8_counter_collision_free_random_not.1 0 1 (by decide)⟩

/-- Appending a fresh array leaves existing cells readable unchanged. -/
lemma heapGet_append_lt {h : Heap} {a : List String} {i : Nat} (hi : i < h.length) :
    heapGet (h ++ [a]) i = heapGet h i := by
  unfold heapGet
  rw [List.getElem?_append_left hi]

/-- Reading the appended cell. -/
lemma heapGet_append_self {h : Heap} {a : List String} :
    heapGet (h ++ [a]) h.length = a := by
  unfold heapGet
  rw [List.getElem?_append_right (Nat.le_refl _)]
  simp

/-- Writing one cell leaves the others unchanged. -/
lemma heapGet_set_ne {h : Heap} {i j : Nat} {a : List String} (hne : i ≠ j) :
    heapGet (h.set i a) j = heapGet h j := by
  unfold heapGet
  rw [List.getElem?_set_ne hne]

/-- Reading a cell just written. -/
lemma heapGet_set_self {h : Heap} {i : Nat} {a : List String} (hi : i < h.length) :
    heapGet (h.set i a) i = a := by
  unfold heapGet
  rw [List.getElem?_set_self hi]
  rfl

/-- `specifyMem` computes, observably, exactly the value-level
`transformation.specify` of the stored template. -/
lemma specifyMem_observe (h : Heap) (t : TransformationMem) (info : CallInfo)
    (numArgs nargs : Nat) :
    observe (specifyMem h t info numArgs nargs).1 (specifyMem h t info numArgs nargs).2 =
      Transformation.specify (observe h t) info numArgs nargs := by
  unfold specifyMem observe Transformation.specify
  simp only []
  congr 1
  rw [heapGet_set_self (by simp), heapGet_append_self]

/-- `specifyMem` writes no pre-existing cell. -/
lemma specifyMem_frame (h : Heap) (t : TransformationMem) (info : CallInfo)
    (numArgs nargs : Nat) {i : Nat} (hi : i < h.length) :
    heapGet (specifyMem h t info numArgs nargs).1 i = heapGet h i := by
  unfold specifyMem
  simp only []
  rw [heapGet_set_ne (by omega), heapGet_append_lt hi]

/-- C9 counterexample: the main-package `(*transformation).specify`
(pipeline.go lines 141-158) does not leave the registry master's shared
params list unchanged.  Specifying the `filter` template for a `[]int`
chain overwrites the shared params array with `func(int) bool`; a second
`[]string` call site specified afterwards reads the corrupted array
(there is no `#T` left to substitute) and so observes a different
specialization than it would against the pristine registry. -/
theorem c9_counterexample_main_specify_mutates_master :
    heapGet c9MasterHeap 0 = ["func(#T) bool"] ∧
    heapGet c9Site1.1 0 = ["func(int) bool"] ∧
    (observe c9Site2After.1 c9Site2After.2).params = ["func(int) bool"] ∧
    (observe c9Site2Fresh.1 c9Site2Fresh.2).params = ["func(string) bool"] ∧
    observe c9Site2After.1 c9Site2After.2 ≠ observe c9Site2Fresh.1 c9Site2Fresh.2 := by
  decide

/-- C9 (amended): the codegen `transformation.specify` (value receiver)
is pure with respect to the registry — with the template's shared params
array stored at a live arena cell, every pre-existing cell (the master's
params array in particular) reads back unchanged, the specialized copy's
params header points at a freshly allocated cell, what `specifyMem`
builds is exactly the value-level private copy `Transformation.specify`
returns, and specializing one call site first changes nothing about what
a second call site's specialization observes.  The historical
main-package `(*transformation).specify` is not pure: it keeps the
master's params cell and overwrites that shared cell with the
substituted strings. -/
theorem c9_codegen_specify_pure_main_specify_mutates :
    (∀ (h : Heap) (t : TransformationMem) (info : CallInfo) (numArgs nargs : Nat),
      t.paramsId < h.length →
      (∀ i, i < h.length →
          heapGet (specifyMem h t info numArgs nargs).1 i = heapGet h i) ∧
      heapGet (specifyMem h t info numArgs nargs).1 t.paramsId = heapGet h t.paramsId ∧
      (specifyMem h t info numArgs nargs).2.paramsId = h.length ∧
      observe (specifyMem h t info numArgs nargs).1 (specifyMem h t info numArgs nargs).2 =
        Transformation.specify (observe h t) info numArgs nargs ∧
      (∀ (t2 : TransformationMem) (info2 : CallInfo) (nA2 na2 : Nat),
          t2.paramsId < h.length →
          observe (specifyMem (specifyMem h t info numArgs nargs).1 t2 info2 nA2 na2).1
              (specifyMem (specifyMem h t info numArgs nargs).1 t2 info2 nA2 na2).2 =
            observe (specifyMem h t2 info2 nA2 na2).1
              (specifyMem h t2 info2 nA2 na2).2)) ∧
    (∀ (h : Heap) (t : TransformationMem) (info : CallInfo) (numArgs nargs : Nat),
      t.paramsId < h.length →
      (specifyMemMain h t info numArgs nargs).2.paramsId = t.paramsId ∧
      heapGet (specifyMemMain h t info numArgs nargs).1 t.paramsId =
        (heapGet h t.paramsId).map (substTemplMain (t.typeFn.run info) numArgs nargs)) := by
  constructor
  · intro h t info numArgs nargs hvalid
    refine ⟨fun i hi => specifyMem_frame h t info numArgs nargs hi,
            specifyMem_frame h t info numArgs nargs hvalid,
            rfl,
            specifyMem_observe h t info numArgs nargs,
            ?_⟩
    intro t2 info2 nA2 na2 h2
    rw [specifyMem_observe, specifyMem_observe]
    congr 1
    unfold observe
    congr 1
    exact specifyMem_frame h t info numArgs nargs h2
  · intro h t info numArgs nargs hvalid
    refine ⟨rfl, ?_⟩
    unfold specifyMemMain
    simp only []
    exact heapGet_set_self hvalid

/-- C9 witness: on the concrete arena holding the master filter params
array, the codegen specify leaves the master's cell unchanged while the
main-package specify overwrites it with the substituted signature. -/
theorem c9_witness :
    (0 : Nat) < 1 ∧
    heapGet (specifyMem c9MasterHeap t_filter_main_mem infoInt 1 0).1 0 =
      heapGet c9MasterHeap 0 ∧
    heapGet (specifyMemMain c9MasterHeap t_filter_main_mem infoInt 1 0).1 0 =
      ["func(int) bool"] := by
  refine ⟨by decide, ?_, ?_⟩
  · exact (c9_codegen_specify_pure_main_specify_mutates.1 c9MasterHeap t_filter_main_mem
      infoInt 1 0 (by decide)).2.1
  · exact ((c9_codegen_specify_pure_main_specify_mutates.2 c9MasterHeap t_filter_main_mem
      infoInt 1 0 (by decide)).2).trans (by decide)

lemma reverseCount_eq_zero {ts : List PipeEntry} (h : NoRev ts) : reverseCount ts = 0 := by
  unfold reverseCount
  rw [List.length_eq_zero, List.filter_eq_nil_iff]
  intro e he
  simpa using h e he

lemma good_of_noRev {ts : List PipeEntry} (h : NoRev ts) : GoodChain ts := by
  refine ⟨by simp [reverseCount_eq_zero h], ?_⟩
  intro i hi hr
  exact absurd hr (h _ (ts.get_mem i hi))

lemma good_of_headRev {e : PipeEntry} {ts : List PipeEntry}
    (hk : e.1 = "reverse_slice") (h : NoRev ts) : GoodChain (e :: ts) := by
  constructor
  · unfold reverseCount
    rw [List.filter_cons_of_pos (by simpa using hk)]
    simp [show (ts.filter (fun e => e.1 = "reverse_slice")) = [] from by
      rw [List.filter_eq_nil_iff]; intro a ha; simpa using h a ha]
  · intro i hi hr
    cases i with
    | zero => exact Or.inl rfl
    | succ n =>
      have hmem : (e :: ts).get ⟨n + 1, hi⟩ ∈ ts := by
        simp only [List.get_cons_succ]
        exact ts.get_mem n _
      exact absurd hr (h _ hmem)

lemma good_of_lastRev {ts' : List PipeEntry} {r : PipeEntry}
    (hk : r.1 = "reverse_slice") (h : NoRev ts') : GoodChain (ts' ++ [r]) := by
  constructor
  · unfold reverseCount
    rw [List.filter_append, List.filter_cons_of_pos (by simpa using hk)]
    simp [show (ts'.filter (fun e => e.1 = "reverse_slice")) = [] from by
      rw [List.filter_eq_nil_iff]; intro a ha; simpa using h a ha]
  · intro i hi hr
    by_cases hlt : i < ts'.length
    · have hget : (ts' ++ [r]).get ⟨i, hi⟩ ∈ ts' := by
        rw [List.get_append i hlt]
        exact ts'.get_mem i hlt
      exact absurd hr (h _ hget)
    · right
      simp only [List.length_append, List.length_cons, List.length_nil] at hi ⊢
      omega

lemma good_of_inv {first hr : Bool} {ts : List PipeEntry} (h : BuildInv first hr ts) :
    GoodChain ts := by
  cases hr with
  | false => exact good_of_noRev (h.1 rfl)
  | true =>
    obtain ⟨ts', r, rfl, hk, hnr⟩ := h.2.1 rfl
    exact good_of_lastRev hk hnr

lemma buildLoop_good :
    ∀ (chain : List ChainCall) (first hr : Bool) (ts : List PipeEntry),
      BuildInv first hr ts → GoodChain (buildLoop chain first hr ts) := by
  intro chain
  induction chain with
  | nil =>
    intro first hr ts hinv
    rw [buildLoop]
    exact good_of_inv hinv
  | cons call rest ih =>
    intro first hr ts hinv
    rw [buildLoop]
    by_cases h1 : call.typeKnown = true
    case neg => rw [if_pos h1]; exact good_of_inv hinv
    case pos =>
    rw [if_neg (not_not_intro h1)]
    by_cases h2 : (call.isSlice || call.isMap) = true
    case neg => rw [if_pos h2]; exact good_of_inv hinv
    case pos =>
    rw [if_neg (not_not_intro h2)]
    simp only []
    by_cases h3 : hasMethod call (suffixedMethodName call) = true
    case pos => rw [if_pos h3]; exact good_of_inv hinv
    case neg =>
    rw [if_neg h3]
    cases htr : transformations (resolveMethodName call) with
    | none => exact good_of_inv hinv
    | some t =>
      simp only []
      by_cases h4 : resolveMethodName call = "reverse_slice"
      · rw [if_pos h4]
        cases hr with
        | true =>
          rw [if_pos rfl]
          simp only [List.tail_cons]
          exact good_of_inv hinv
        | false =>
          rw [if_neg (by simp)]
          cases first with
          | true =>
            rw [if_pos rfl]
            obtain ⟨hts, -⟩ := hinv.2.2 rfl
            subst hts
            apply ih
            refine ⟨?_, ?_, ?_⟩
            · intro h
              simp at h
            · intro _
              exact ⟨[], (resolveMethodName call, t, call), by simp, h4,
                     by intro e he; cases he⟩
            · intro h
              simp at h
          | false =>
            rw [if_neg (by simp)]
            exact good_of_headRev h4 (hinv.1 rfl)
      · rw [if_neg h4]
        apply ih
        cases hr with
        | false =>
          refine ⟨?_, ?_, ?_⟩
          · intro _ e he
            rcases List.mem_cons.1 he with rfl | hmem
            · exact h4
            · exact hinv.1 rfl e hmem
          · intro h
            simp at h
          · intro h
            simp at h
        | true =>
          refine ⟨?_, ?_, ?_⟩
          · intro h
            simp at h
          · intro _
            obtain ⟨ts', r, rfl, hk, hnr⟩ := hinv.2.1 rfl
            refine ⟨(resolveMethodName call, t, call) :: ts', r, by simp, hk, ?_⟩
            intro e he
            rcases List.mem_cons.1 he with rfl | hmem
            · exact h4
            · exact hnr e hmem
          · intro h
            simp at h

/-- C2: every pipeline the recognizer finalizes contains at most one
reversing operation, and any reversing entry sits at the first or last
position of the chain; moreover, when the backward walk meets a reversing
link while `haveReverse` is already set, the just-prepended entry is
dropped again and the walk stops, returning the chain as it was. -/
theorem c2_single_reverse_at_chain_ends :
    (∀ (chain : List ChainCall) (pr : List PipeEntry × List Transformation),
        buildPipeline chain = some pr → GoodChain pr.1) ∧
    (∀ (call : ChainCall) (rest : List ChainCall) (first : Bool) (ts : List PipeEntry),
        call.typeKnown = true → (call.isSlice || call.isMap) = true →
        hasMethod call (suffixedMethodName call) = false →
        resolveMethodName call = "reverse_slice" →
        buildLoop (call :: rest) first true ts = ts) := by
  constructor
  · intro chain pr h
    unfold buildPipeline at h
    simp only [] at h
    split at h
    · exact absurd h (by simp)
    · have hpr : pr.1 = buildLoop chain true false [] := by
        cases h
        rfl
      rw [hpr]
      apply buildLoop_good
      refine ⟨?_, ?_, ?_⟩
      · intro _ e he
        cases he
      · intro h
        simp at h
      · intro _
        exact ⟨rfl, rfl⟩
  · intro call rest first ts h1 h2 h3 h4
    rw [buildLoop, if_neg (by simp [h1]), if_neg (by simp [h2])]
    simp only []
    rw [if_neg (by simp [h3]), h4]
    rfl

/-- C2 witness: the concrete finalized chain for `revChainEx` carries at
most one reversal, and discarding on a second reversal is exercised on a
concrete state. -/
theorem c2_witness :
    reverseCount revChainExResult.1 ≤ 1 ∧
    buildLoop [cReverse] true true [] = [] :=
  ⟨(c2_single_reverse_at_chain_ends.1 revChainEx revChainExResult (by decide)).1,
   c2_single_reverse_at_chain_ends.2 cReverse [] true [] rfl rfl rfl (by decide)⟩

end Ply
